import Mathlib

/-!
Verification development for the AIdevtools backend validation subsystem.

Shallow embedding of:
* `app/services/code_validator.py` — `CodeValidator` (syntax gate, sandboxed
  execution, allure result collection, local auto-fixes, AI repair loop);
* `app/utils/circuit_breaker.py` — `CircuitBreaker`;
* `app/utils/http_client.py` — `make_request_with_retry`.

External effects (the `ast.parse` syntax check, the spawned child process,
the files found in the allure results directory, the remote model call,
wall-clock time) are inputs to the embedded functions, supplied by oracle
parameters, so that each embedded function is a pure function of the source
code plus the behaviour of its environment.  Python string operations are
mirrored exactly: `needle in hay` becomes `pyIn`, `s.split(sep)` becomes
`String.splitOn`, `s.strip()` becomes `String.trim`, `a or b` on strings
becomes `pyOrS`.  Quote characters inside Python message literals are
elided (the control flow never inspects them).
-/

namespace AIdevtools

/-- Is `needle` a contiguous sublist of `hay`? -/
def listInfix (needle : List Char) : List Char → Bool
  | [] => needle.isEmpty
  | c :: cs => needle.isPrefixOf (c :: cs) || listInfix needle cs

/-- Python `needle in hay` substring test. -/
def pyIn (needle hay : String) : Bool :=
  listInfix needle.data hay.data

/-- Python `a or b` for strings: `b` when `a` is empty, else `a`. -/
def pyOrS (a b : String) : String :=
  if a = "" then b else a

/-- If `sep` is a prefix of `l`, the remainder after it. -/
def dropPref : List Char → List Char → Option (List Char)
  | [], l => some l
  | _ :: _, [] => none
  | s :: ss, c :: cs => if c = s then dropPref ss cs else none

/-- Worker for `pySplit`; `fuel` bounds the number of characters examined,
`acc` holds the current chunk reversed. -/
def pySplitGo (sep : List Char) : Nat → List Char → List Char → List (List Char)
  | 0, _, acc => [acc.reverse]
  | _ + 1, [], acc => [acc.reverse]
  | fuel + 1, c :: cs, acc =>
    match dropPref sep (c :: cs) with
    | some rest => acc.reverse :: pySplitGo sep fuel rest []
    | none => pySplitGo sep fuel cs (c :: acc)

/-- Python `hay.split(sep)` for nonempty `sep`: left-to-right greedy,
non-overlapping, keeps empty chunks. -/
def pySplit (sep hay : String) : List String :=
  (pySplitGo sep.data (hay.data.length + 1) hay.data []).map (fun l => ⟨l⟩)

/-- Python `sep.join(parts)`. -/
def pyJoin (sep : String) : List String → String
  | [] => ""
  | [x] => x
  | x :: xs => x ++ sep ++ pyJoin sep xs

/-- Python `s.strip()` (ASCII whitespace, which is all these sources use). -/
def pyStrip (s : String) : String :=
  ⟨((s.data.dropWhile Char.isWhitespace).reverse.dropWhile Char.isWhitespace).reverse⟩

/-- Python `s.startswith(p)`. -/
def pyStartsWith (p s : String) : Bool :=
  p.data.isPrefixOf s.data

/-- Python `s.endswith(p)`. -/
def pyEndsWith (p s : String) : Bool :=
  p.data.isSuffixOf s.data

/-- Process environments as association lists (Python `dict` insertion order;
keys unique in practice, lookup takes the first binding). -/
abbrev Env := List (String × String)

/-- Python `dict.setdefault(k, v)`: insert `(k, v)` only when `k` is absent. -/
def Env.setdefault (e : Env) (k v : String) : Env :=
  match List.lookup k e with
  | some _ => e
  | none => e ++ [(k, v)]

/-- Key lookup (`List.lookup`) on an `Env`. -/
def Env.lookup (e : Env) (k : String) : Option String :=
  List.lookup k e

/-! ### `CodeValidator` data model (`code_validator.py`) -/

namespace CV

/-- Aggregated allure counts built by `CodeValidator._parse_allure_results`.
`tests` records the per-test statuses in file order. -/
structure AllureResults where
  total_tests : Nat
  passed : Nat
  failed : Nat
  broken : Nat
  skipped : Nat
  tests : List String
  deriving Repr, DecidableEq

/-- One fold step of the `for result_file in result_files` loop. -/
def bumpStatus (r : AllureResults) (status : String) : AllureResults :=
  { r with
    total_tests := r.total_tests + 1
    passed := r.passed + (if status = "passed" then 1 else 0)
    failed := r.failed + (if status = "failed" then 1 else 0)
    broken := r.broken + (if status = "broken" then 1 else 0)
    skipped := r.skipped + (if status = "skipped" then 1 else 0)
    tests := r.tests ++ [status] }

/-- The collector `CodeValidator._parse_allure_results`, as a function of the list of test
statuses read from the `*-result.json` files in the results directory. -/
def parseAllureResults (statuses : List String) : AllureResults :=
  statuses.foldl bumpStatus ⟨0, 0, 0, 0, 0, []⟩

/-- The `CodeValidationResult` class at the top of `code_validator.py`. -/
structure CodeValidationResult where
  is_valid : Bool
  can_execute : Bool
  syntaxErrors : List String
  runtimeErrors : List String
  execution_output : String
  execution_time : ℚ
  allure_report_path : Option String
  allure_results : Option AllureResults
  deriving Repr, DecidableEq

/-- Outcome of the single `subprocess.run` call inside `execute_code`. -/
inductive ChildOutcome where
  /-- Exception `subprocess.TimeoutExpired` was raised. -/
  | timeout
  /-- Some other exception was raised by `subprocess.run`. -/
  | exc (msg : String)
  /-- The child exited with `returncode`, `stdout` and `stderr`. -/
  | exited (returncode : Int) (stdout stderr : String)
  deriving Repr, DecidableEq

/-- Environmental behaviour of one `execute_code` call: what the child
process did, how long it took, which test statuses the allure results
directory held, whether that directory existed afterwards, and the two
fresh scratch names picked by `tempfile` / `uuid`. -/
structure World where
  childOutcome : ChildOutcome
  elapsed : ℚ
  allureStatuses : List String
  dirExists : Bool
  tempFile : String
  runId : String
  deriving Repr, DecidableEq

/-- Predicate `CodeValidator.has_allure_decorators`. -/
def hasAllureDecorators (code : String) : Bool :=
  pyIn "@allure.feature" code || pyIn "@allure.story" code ||
  pyIn "@allure.title" code || pyIn "import allure" code ||
  pyIn "allure.step" code

/-- The environment handed to the child: `os.environ.copy()` followed by
`setdefault` of the two browser-location hints (`execute_code`, lines
159-162). -/
def childEnv (host : Env) : Env :=
  ((host.setdefault "CHROME_BIN" "/usr/bin/chromium").setdefault
    "CHROMEDRIVER_PATH" "/usr/bin/chromedriver")

/-- One child spawn performed by `execute_code`: which command shape was
used, the environment passed, and the scratch file executed. -/
structure Spawn where
  usePytest : Bool
  env : Env
  target : String
  deriving Repr, DecidableEq

/-- Result of one `execute_code` call plus its observable effects:
the spawns it performed and the scratch paths it created that still
exist when the call returns. -/
structure ExecOutput where
  result : CodeValidationResult
  spawns : List Spawn
  created : List String
  scratchLeft : List String
  deriving Repr, DecidableEq

/-- Message appended for a nonzero return code (lines 190-195). -/
def returncodeMsg (rc : Int) : String :=
  if rc = 2 then
    "pytest: No tests collected. Tests may have syntax errors or missing dependencies."
  else if rc = 5 then
    "pytest: No tests found in file."
  else
    "pytest exit code " ++ toString rc

/-- Embedding of `CodeValidator.execute_code`.  Here `parse` is the `ast.parse`-backed
`validate_syntax` oracle (list of syntax error messages), `timeoutCfg` is
`self.timeout`, `host` is `os.environ`, and `w` supplies the run's
external behaviour. -/
def executeCode (parse : String → List String) (timeoutCfg : Nat) (host : Env)
    (w : World) (code : String) (source_code : Option String)
    (run_with_pytest : Bool) : ExecOutput :=
  let syntaxErrors := parse code
  if syntaxErrors ≠ [] then
    { result :=
        { is_valid := false, can_execute := false
          syntaxErrors := syntaxErrors, runtimeErrors := []
          execution_output := "", execution_time := 0
          allure_report_path := none, allure_results := none }
      spawns := [], created := [], scratchLeft := [] }
  else
    let has_allure := hasAllureDecorators code
    let rwp := run_with_pytest || has_allure
    let _full_code := match source_code with
      | some s => s ++ "\n\n" ++ code
      | none => code
    let resultsPath : Option String :=
      if rwp then some ("allure-results/" ++ w.runId) else none
    let env := childEnv host
    let spawn : Spawn := ⟨rwp, env, w.tempFile⟩
    let created := (match resultsPath with | some p => [p] | none => []) ++ [w.tempFile]
    -- `finally: os.unlink(temp_file)` removes the scratch source on every path
    let scratchLeft := created.filter (fun p => p ≠ w.tempFile)
    match w.childOutcome with
    | .timeout =>
      { result :=
          { is_valid := true, can_execute := false
            syntaxErrors := []
            runtimeErrors := ["Execution timeout (" ++ toString timeoutCfg ++ "s)"]
            execution_output := "", execution_time := 0
            allure_report_path := resultsPath, allure_results := none }
        spawns := [spawn], created := created, scratchLeft := scratchLeft }
    | .exc m =>
      { result :=
          { is_valid := true, can_execute := false
            syntaxErrors := []
            runtimeErrors := ["Execution error: " ++ m]
            execution_output := "", execution_time := 0
            allure_report_path := resultsPath, allure_results := none }
        spawns := [spawn], created := created, scratchLeft := scratchLeft }
    | .exited rc out err =>
      let full_output := if err ≠ "" then out ++ "\n\nSTDERR:\n" ++ err else out
      let runtimeErrors :=
        if rc ≠ 0 then [returncodeMsg rc, pyOrS full_output (pyOrS err out)] else []
      let can_execute := rc = 0
      let allure_results :=
        if rwp && w.dirExists then some (parseAllureResults w.allureStatuses) else none
      { result :=
          { is_valid := true, can_execute := can_execute
            syntaxErrors := []
            runtimeErrors := runtimeErrors
            execution_output := if rwp then full_output else out
            execution_time := w.elapsed
            allure_report_path := resultsPath, allure_results := allure_results }
        spawns := [spawn], created := created, scratchLeft := scratchLeft }

/-- The success test used by `validate_with_ai_retry` (line 412):
`result.is_valid and result.can_execute`. -/
def succeededCheck (r : CodeValidationResult) : Bool :=
  r.is_valid && r.can_execute

/-! ### `_apply_common_fixes` and `validate_and_fix` -/

/-- Python `line.startswith((' ', '\t'))`. -/
def startsIndent (line : String) : Bool :=
  pyStartsWith " " line || pyStartsWith "\t" line

/-- The inner loop of the indentation fix (lines 368-378): after a line whose
stripped form ends in a colon, a nonempty unindented successor gets an
indented copy inserted; the successor itself is still processed. -/
def fixIndentLines : List String → List String
  | [] => []
  | [l] => [l]
  | l :: next :: rest =>
    if pyEndsWith ":" (pyStrip l) && pyStrip next ≠ "" && !startsIndent next then
      l :: ("    " ++ next) :: fixIndentLines (next :: rest)
    else
      l :: fixIndentLines (next :: rest)

/-- The `from allure_commons.types import Severity` line inserted by the
Severity fix. -/
def sevImportLine : String :=
  "from allure_commons.types import Severity"

/-- Lines 356-361: insert `sevImportLine` after the first line containing
`import allure`; if no such line exists nothing is inserted. -/
def insertAfterAllureImport : List String → List String
  | [] => []
  | l :: ls =>
    if pyIn "import allure" l then l :: sevImportLine :: ls
    else l :: insertAfterAllureImport ls

/-- Fix message for the Severity import (quotes elided). -/
def sevFixMsg : String :=
  "Added missing from allure_commons.types import Severity"

/-- Embedding of `CodeValidator._apply_common_fixes`.  All trigger conditions test the
*original* `code` argument, while rewrites accumulate on `fixed_code`,
exactly as in the source. -/
def applyCommonFixes (code : String) (errors : List String) : String × List String :=
  let st : String × List String := (code, [])
  let st :=
    if pyIn "pytest" code && !pyIn "import pytest" code then
      ("import pytest\n" ++ st.1, st.2 ++ ["Added missing import pytest"])
    else st
  let st :=
    if pyIn "unittest" code && !pyIn "import unittest" code then
      ("import unittest\n" ++ st.1, st.2 ++ ["Added missing import unittest"])
    else st
  let st :=
    if pyIn "@allure" code && !pyIn "import allure" code then
      ("import allure\n" ++ st.1, st.2 ++ ["Added missing import allure"])
    else st
  let st :=
    if pyIn "Severity" code && !pyIn sevImportLine code then
      (pyJoin "\n" (insertAfterAllureImport (pySplit "\n" st.1)),
       st.2 ++ [sevFixMsg])
    else st
  let st :=
    if errors.any (fun e => pyIn "IndentationError" e || pyIn "expected an indented block" e) then
      let lines := pySplit "\n" st.1
      let fixedLines := fixIndentLines lines
      if fixedLines.length ≠ lines.length then
        (pyJoin "\n" fixedLines, st.2 ++ ["Fixed indentation issues"])
      else st
    else st
  st

/-- Return value of `validate_and_fix`. -/
structure FixResult where
  fixed_code : String
  is_valid : Bool
  fixes_applied : List String
  remaining_errors : List String
  deriving Repr, DecidableEq

/-- The code after the `for attempt in range(max_retries)` loop
(lines 327-335): final validation of whatever `fixed_code` holds. -/
def vafFinal (parse : String → List String) (fixed : String)
    (fixes : List String) : FixResult :=
  let finalErrors := parse fixed
  ⟨fixed, finalErrors.isEmpty, fixes, finalErrors⟩

/-- The loop body of `validate_and_fix`; `fuel` is the number of remaining
iterations of `range(max_retries)` and `attempt` the current index. -/
def vafGo (parse : String → List String) (maxRetries : Nat) :
    Nat → Nat → String → List String → FixResult
  | 0, _, fixed, fixes => vafFinal parse fixed fixes
  | fuel + 1, attempt, fixed, fixes =>
    let syntaxErrors := parse fixed
    if syntaxErrors.isEmpty then ⟨fixed, true, fixes, []⟩
    else if attempt < maxRetries - 1 then
      let fr := applyCommonFixes fixed syntaxErrors
      if fr.2.isEmpty then vafFinal parse fr.1 (fixes ++ fr.2)
      else vafGo parse maxRetries fuel (attempt + 1) fr.1 (fixes ++ fr.2)
    else vafGo parse maxRetries fuel (attempt + 1) fixed fixes

/-- Embedding of `CodeValidator.validate_and_fix` (default `max_retries = 3`). -/
def validateAndFix (parse : String → List String) (code : String)
    (maxRetries : Nat) : FixResult :=
  vafGo parse maxRetries maxRetries 0 code []

/-! ### `validate_with_ai_retry` -/

/-- The markdown-stripping step applied to the model response
(lines 480-484): Python split/index/strip mirrored exactly. -/
def cleanMarkdown (s : String) : String :=
  if pyIn "```python" s then
    pyStrip (((pySplit "```" ((pySplit "```python" s).getD 1 "")).headD ""))
  else if pyIn "```" s then
    pyStrip (((pySplit "```" ((pySplit "```" s).getD 1 "")).headD ""))
  else s

/-- Session result (`validate_with_ai_retry`'s returned dict). `trail`
is instrumentation: the candidate executed at each loop iteration together
with its validation result, in order. -/
structure SessionOut where
  final_code : String
  is_valid : Bool
  retries_count : Nat
  validation : CodeValidationResult
  trail : List (String × CodeValidationResult)
  deriving Repr, DecidableEq

/-- Placeholder validation record for the unreachable fuel-exhausted case. -/
def emptyValidation : CodeValidationResult :=
  ⟨false, false, [], [], "", 0, none, none⟩

/-- The `for retry in range(max_retries + 1)` loop of
`validate_with_ai_retry`.  `worlds` gives each execution attempt's external
behaviour; `ai` is the `ai_service.llm_client.chat_completion` oracle,
indexed by the loop variable, returning the response string or the raised
exception's message. -/
def sessionGo (parse : String → List String) (worlds : Nat → World)
    (timeoutCfg : Nat) (host : Env) (ai : Nat → String → Except String String)
    (maxRetries : Nat) :
    Nat → Nat → String → Nat → List (String × CodeValidationResult) → SessionOut
  | 0, _, cur, rc, trail => ⟨cur, false, rc, emptyValidation, trail⟩
  | fuel + 1, retry, cur, rc, trail =>
    let result := (executeCode parse timeoutCfg host (worlds retry) cur none true).result
    let trail' := trail ++ [(cur, result)]
    if succeededCheck result then ⟨cur, true, rc, result, trail'⟩
    else if maxRetries ≤ retry then ⟨cur, false, rc, result, trail'⟩
    else
      let fixRes := validateAndFix parse cur 3
      if fixRes.is_valid then
        sessionGo parse worlds timeoutCfg host ai maxRetries fuel (retry + 1)
          fixRes.fixed_code rc trail'
      else
        match ai retry cur with
        | .ok s =>
          sessionGo parse worlds timeoutCfg host ai maxRetries fuel (retry + 1)
            (cleanMarkdown s) (rc + 1) trail'
        | .error _ =>
          sessionGo parse worlds timeoutCfg host ai maxRetries fuel (retry + 1)
            cur (rc + 1) trail'

/-- Embedding of `CodeValidator.validate_with_ai_retry` (source default
`max_retries = 4`). -/
def validateWithAiRetry (parse : String → List String) (worlds : Nat → World)
    (timeoutCfg : Nat) (host : Env) (ai : Nat → String → Except String String)
    (code : String) (maxRetries : Nat) : SessionOut :=
  sessionGo parse worlds timeoutCfg host ai maxRetries (maxRetries + 1) 0 code 0 []

/-- The spec's notion of "best candidate": highest `passed` count seen so
far, replaced only on strict improvement or on first full success
(spec §3 RepairSession). -/
def passedOf (r : CodeValidationResult) : Nat :=
  match r.allure_results with
  | some a => a.passed
  | none => 0

/-- Fold the spec's best-candidate rule over a trail of attempts. -/
def specBest (init : String × CodeValidationResult) :
    List (String × CodeValidationResult) → String × CodeValidationResult :=
  List.foldl
    (fun best attempt =>
      if (succeededCheck attempt.2 && !succeededCheck best.2)
          || passedOf best.2 < passedOf attempt.2 then attempt else best)
    init

/-- The spec's best candidate over a whole session trail: the first attempt
seeded as initial best, replaced only per the `specBest` rule. -/
def specBestOfTrail : List (String × CodeValidationResult) → Option String
  | [] => none
  | a :: rest => some (specBest a rest).1

end CV

/-! ### `CircuitBreaker` (`circuit_breaker.py`) -/

namespace CB

/-- The three values of `self.state`. -/
inductive Phase where
  | closed
  | opened
  | halfOpen
  deriving Repr, DecidableEq

/-- The mutable fields of a `CircuitBreaker` instance, plus its two
configuration parameters.  Wall-clock instants are rationals. -/
structure Breaker where
  failure_threshold : Nat
  recovery_timeout : ℚ
  failure_count : Nat
  last_failure_time : Option ℚ
  state : Phase
  deriving Repr, DecidableEq

/-- Constructor `CircuitBreaker.__init__`. -/
def initBreaker (threshold : Nat) (recovery : ℚ) : Breaker :=
  ⟨threshold, recovery, 0, none, .closed⟩

/-- What one `call` did: rejected fast while open, or invoked the wrapped
operation (which succeeded or raised the expected exception). -/
inductive CallOutcome where
  | rejected
  | invokedOk
  | invokedFail
  deriving Repr, DecidableEq

/-- Embedding of `CircuitBreaker._should_attempt_reset` at wall-clock `now`. -/
def shouldAttemptReset (b : Breaker) (now : ℚ) : Bool :=
  match b.last_failure_time with
  | none => false
  | some t => b.recovery_timeout ≤ now - t

/-- Embedding of `CircuitBreaker._on_success`. -/
def onSuccess (b : Breaker) : Breaker :=
  { b with
    failure_count := 0
    state := if b.state = .halfOpen then .closed else b.state }

/-- Embedding of `CircuitBreaker._on_failure` at wall-clock `now`. -/
def onFailure (b : Breaker) (now : ℚ) : Breaker :=
  let fc := b.failure_count + 1
  { b with
    failure_count := fc
    last_failure_time := some now
    state := if b.failure_threshold ≤ fc then .opened else b.state }

/-- The `try`/`except` body of `call`: run the wrapped operation.
`succ = true` models a normal return, `succ = false` the expected
exception being raised (and re-raised after `_on_failure`). -/
def runOp (b : Breaker) (now : ℚ) (succ : Bool) : Breaker × CallOutcome :=
  if succ then (onSuccess b, .invokedOk) else (onFailure b now, .invokedFail)

/-- Embedding of `CircuitBreaker.call` at wall-clock `now`, where `succ` says whether the
wrapped operation would succeed if invoked. -/
def call (b : Breaker) (now : ℚ) (succ : Bool) : Breaker × CallOutcome :=
  if b.state = .opened then
    if shouldAttemptReset b now then
      runOp { b with state := .halfOpen } now succ
    else (b, .rejected)
  else runOp b now succ

/-- Breaker states reachable from `__init__` through `call` steps
(sequential usage: each call completes before the next begins). -/
inductive Reachable (threshold : Nat) (recovery : ℚ) : Breaker → Prop where
  | init : Reachable threshold recovery (initBreaker threshold recovery)
  | step {b : Breaker} (now : ℚ) (succ : Bool) :
      Reachable threshold recovery b →
      Reachable threshold recovery (call b now succ).1

end CB

/-! ### `make_request_with_retry` (`http_client.py`) -/

namespace HC

/-- Outcome of one `client.request` + `raise_for_status` round trip. -/
inductive ReqOutcome where
  /-- 2xx/3xx: `raise_for_status` passes and the JSON body is returned. -/
  | ok (json : String)
  /-- Exception `httpx.HTTPStatusError` with the response status and text. -/
  | httpStatus (status : Nat) (text : String)
  /-- Exception `httpx.TimeoutException`. -/
  | timeoutExc (msg : String)
  /-- Exception `httpx.ConnectError`. -/
  | connectExc (msg : String)
  /-- Any other exception. -/
  | otherExc (msg : String)
  deriving Repr, DecidableEq

/-- What `make_request_with_retry` terminates with: a JSON payload or a
raised `HTTPException` carrying a status code and detail. -/
inductive HttpResult where
  | success (json : String)
  | httpError (status : Nat) (detail : String)
  deriving Repr, DecidableEq

/-- The HTTP status a terminal result surfaces with, if it is an error. -/
def HttpResult.statusOf : HttpResult → Option Nat
  | .success _ => none
  | .httpError st _ => some st

/-- Trace of one `make_request_with_retry` run: terminal result, number of
requests actually issued, and the inter-attempt sleeps in order. -/
structure HttpTrace where
  result : HttpResult
  attemptsMade : Nat
  delays : List ℚ
  deriving Repr, DecidableEq

/-- The final `raise` after the loop (lines 99-113). -/
def finalRaise (last : Option ReqOutcome) (attempts : Nat)
    (delays : List ℚ) : HttpTrace :=
  match last with
  | some (.httpStatus st text) =>
    ⟨.httpError st ("Failed after retries: " ++ text), attempts, delays⟩
  | some (.timeoutExc m) => ⟨.httpError 503 ("Failed after retries: " ++ m), attempts, delays⟩
  | some (.connectExc m) => ⟨.httpError 503 ("Failed after retries: " ++ m), attempts, delays⟩
  | some (.otherExc m) => ⟨.httpError 503 ("Failed after retries: " ++ m), attempts, delays⟩
  | some (.ok _) => ⟨.httpError 503 "Failed after retries", attempts, delays⟩
  | none => ⟨.httpError 503 "Failed after retries", attempts, delays⟩

/-- The `for attempt in range(max_retries + 1)` loop.  `outcomes` gives the
behaviour of each attempted request; `fuel` counts remaining iterations. -/
def retryGo (outcomes : Nat → ReqOutcome) (maxRetries : Nat) (backoff : ℚ) :
    Nat → Nat → Option ReqOutcome → List ℚ → HttpTrace
  | 0, attempt, last, delays => finalRaise last attempt delays
  | fuel + 1, attempt, _last, delays =>
    match outcomes attempt with
    | .ok j => ⟨.success j, attempt + 1, delays⟩
    | .httpStatus st text =>
      if 400 ≤ st ∧ st < 500 then
        ⟨.httpError st ("Client error: " ++ text), attempt + 1, delays⟩
      else
        let delays' := if attempt < maxRetries then delays ++ [backoff * 2 ^ attempt] else delays
        retryGo outcomes maxRetries backoff fuel (attempt + 1) (some (.httpStatus st text)) delays'
    | .timeoutExc m =>
      let delays' := if attempt < maxRetries then delays ++ [backoff * 2 ^ attempt] else delays
      retryGo outcomes maxRetries backoff fuel (attempt + 1) (some (.timeoutExc m)) delays'
    | .connectExc m =>
      let delays' := if attempt < maxRetries then delays ++ [backoff * 2 ^ attempt] else delays
      retryGo outcomes maxRetries backoff fuel (attempt + 1) (some (.connectExc m)) delays'
    | .otherExc m =>
      let delays' := if attempt < maxRetries then delays ++ [backoff * 2 ^ attempt] else delays
      retryGo outcomes maxRetries backoff fuel (attempt + 1) (some (.otherExc m)) delays'

/-- Embedding of `make_request_with_retry` with request behaviour `outcomes`. -/
def makeRequestWithRetry (outcomes : Nat → ReqOutcome) (maxRetries : Nat)
    (backoff : ℚ) : HttpTrace :=
  retryGo outcomes maxRetries backoff (maxRetries + 1) 0 none []

end HC

/-! ### Concrete oracles used by witnesses and counterexamples -/

namespace Oracles

/-- An `ast.parse` oracle under which every source parses cleanly. -/
def parseOK : String → List String := fun _ => []

/-- An `ast.parse` oracle flagging exactly the string `"Severity ="` — as
CPython does (`SyntaxError: invalid syntax`); everything else parses. -/
def parseSev : String → List String :=
  fun s => if s = "Severity =" then ["Syntax error at line 1: invalid syntax"] else []

/-- An `ast.parse` oracle under which every source fails to parse (the
remote fixer keeps returning syntactically invalid code). -/
def parseBad : String → List String :=
  fun _ => ["Syntax error at line 1: invalid syntax"]

/-- A fix oracle returning a fresh (still invalid) candidate per retry. -/
def aiJunk : Nat → String → Except String String :=
  fun i _ => .ok ("junk" ++ toString i)

/-- A fix oracle whose every call raises (e.g. a non-retryable
`HTTPException` surfaced by the retrying client). -/
def aiErr : Nat → String → Except String String :=
  fun _ _ => .error "Client error: 400 bad request"

/-- A world whose child exits cleanly at once. -/
def wQuiet : CV.World := ⟨.exited 0 "" "", 0, [], false, "tmp.py", "run0"⟩

/-- A world for spec §8 Scenario B: the structured runner reports three
tests, two passed and one failed, and pytest exits with code 1. -/
def wScenB : CV.World :=
  ⟨.exited 1 "collected 3 items" "", 1, ["passed", "passed", "failed"], true, "t.py", "r1"⟩

/-- A world whose child exceeds the deadline. -/
def wTimeout : CV.World := ⟨.timeout, 0, [], false, "t.py", "r2"⟩

end Oracles

/-! ### Helper lemmas -/

theorem lookup_append (k : String) (l1 l2 : List (String × String)) :
    List.lookup k (l1 ++ l2) =
      match List.lookup k l1 with
      | some v => some v
      | none => List.lookup k l2 := by
  induction l1 with
  | nil => simp
  | cons a t ih =>
    obtain ⟨a, b⟩ := a
    by_cases h : k = a
    · subst h; simp [List.lookup]
    · simp only [List.cons_append, List.lookup]
      rw [beq_false_of_ne h]
      exact ih

theorem lookup_setdefault_self (e : Env) (k v : String) :
    (e.setdefault k v).lookup k = some ((e.lookup k).getD v) := by
  unfold Env.setdefault Env.lookup
  cases h : List.lookup k e with
  | some w => simp [h]
  | none => simp [lookup_append, h, List.lookup]

theorem lookup_setdefault_ne (e : Env) (k v k2 : String) (h : k2 ≠ k) :
    (e.setdefault k v).lookup k2 = e.lookup k2 := by
  unfold Env.setdefault Env.lookup
  cases hl : List.lookup k e with
  | some w => rfl
  | none =>
    simp only [lookup_append]
    cases h2 : List.lookup k2 e with
    | some w => rfl
    | none => simp [List.lookup, beq_false_of_ne h]

/-- When the source fails the syntax gate, `execute_code` returns early
with `is_valid = false` and performs no spawn. -/
theorem executeCode_syntax_invalid
    (parse : String → List String) (t : Nat) (host : Env) (w : CV.World)
    (code : String) (src : Option String) (rwp : Bool)
    (hparse : parse code ≠ []) :
    (CV.executeCode parse t host w code src rwp).result.is_valid = false ∧
    (CV.executeCode parse t host w code src rwp).spawns = [] := by
  obtain ⟨co, el, st, de, tf, ri⟩ := w
  simp [CV.executeCode, hparse]

/-! ### C10 -/

/-- C10: if the submitted source contains any Allure pattern,
`execute_code` runs it under the structured pytest runner even when the
caller passed `run_with_pytest = False` — the single spawned command is
the pytest command, for every such (syntactically valid) source. -/
theorem c10_allure_forces_pytest
    (parse : String → List String) (t : Nat) (host : Env) (w : CV.World)
    (code : String) (src : Option String)
    (hparse : parse code = []) (hallure : CV.hasAllureDecorators code = true) :
    (CV.executeCode parse t host w code src false).spawns =
      [⟨true, CV.childEnv host, w.tempFile⟩] := by
  obtain ⟨co, el, st, de, tf, ri⟩ := w
  cases co <;> simp [CV.executeCode, hparse, hallure]

/-- Witness for C10: a source containing `import allure`, submitted with
`run_with_pytest = False`, is nonetheless spawned under pytest. -/
theorem c10_witness :
    (CV.executeCode Oracles.parseOK 10 [] Oracles.wQuiet "import allure" none
        false).spawns = [⟨true, CV.childEnv [], "tmp.py"⟩] :=
  c10_allure_forces_pytest Oracles.parseOK 10 [] Oracles.wQuiet "import allure"
    none rfl (by decide)

/-! ### C6 -/

/-- C6: for every execution whose child exceeds the deadline, the returned
record contains exactly one Timeout diagnostic in its runtime diagnostics,
`can_execute` is false, and exactly one child was spawned (the timeout is
not locally retried). -/
theorem c6_timeout_single_diagnostic_terminal
    (parse : String → List String) (t : Nat) (host : Env) (w : CV.World)
    (code : String) (src : Option String) (rwp : Bool)
    (hparse : parse code = []) (hto : w.childOutcome = .timeout) :
    (CV.executeCode parse t host w code src rwp).result.runtimeErrors =
      ["Execution timeout (" ++ toString t ++ "s)"] ∧
    (CV.executeCode parse t host w code src rwp).result.can_execute = false ∧
    (CV.executeCode parse t host w code src rwp).spawns.length = 1 := by
  obtain ⟨co, el, st, de, tf, ri⟩ := w
  cases hto
  simp [CV.executeCode, hparse]

/-- Witness for C6 at a concrete timed-out run. -/
theorem c6_witness :
    (CV.executeCode Oracles.parseOK 10 [] Oracles.wTimeout "x" none
        false).result.runtimeErrors =
      ["Execution timeout (" ++ toString 10 ++ "s)"] ∧
    (CV.executeCode Oracles.parseOK 10 [] Oracles.wTimeout "x" none
        false).result.can_execute = false ∧
    (CV.executeCode Oracles.parseOK 10 [] Oracles.wTimeout "x" none
        false).spawns.length = 1 :=
  c6_timeout_single_diagnostic_terminal Oracles.parseOK 10 [] Oracles.wTimeout
    "x" none false rfl rfl

/-! ### C4 -/

/-- C4 counterexample: the child environment is `os.environ.copy()` plus
two `setdefault` calls, not an allow-list.  Two runs whose host
environments differ only in the non-allow-listed variable `SECRET_TOKEN`
pass *different* environments to the child, refuting "a host environment
variable outside the allow-list has no effect on the environment the
child receives". -/
theorem c4_counterexample_host_env_leaks :
    (CV.executeCode Oracles.parseOK 10 [] Oracles.wQuiet "x" none
        false).spawns ≠
    (CV.executeCode Oracles.parseOK 10 [("SECRET_TOKEN", "abc")] Oracles.wQuiet
        "x" none false).spawns := by decide

/-- C4 amended: the spawned child receives the full host environment with
`CHROME_BIN` and `CHROMEDRIVER_PATH` defaulted to the chromium paths only
when absent; every other host variable is forwarded unchanged (so host
variables outside the hint pair do affect the child). -/
theorem c4_amended_full_env_with_defaults
    (parse : String → List String) (t : Nat) (host : Env) (w : CV.World)
    (code : String) (src : Option String) (rwp : Bool) (k : String)
    (hparse : parse code = [])
    (hk1 : k ≠ "CHROME_BIN") (hk2 : k ≠ "CHROMEDRIVER_PATH") :
    (CV.executeCode parse t host w code src rwp).spawns.map CV.Spawn.env =
      [CV.childEnv host] ∧
    (CV.childEnv host).lookup k = host.lookup k ∧
    (CV.childEnv host).lookup "CHROME_BIN" =
      some ((host.lookup "CHROME_BIN").getD "/usr/bin/chromium") ∧
    (CV.childEnv host).lookup "CHROMEDRIVER_PATH" =
      some ((host.lookup "CHROMEDRIVER_PATH").getD "/usr/bin/chromedriver") := by
  refine ⟨?_, ?_, ?_, ?_⟩
  · obtain ⟨co, el, st, de, tf, ri⟩ := w
    cases co <;> simp [CV.executeCode, hparse]
  · unfold CV.childEnv
    rw [lookup_setdefault_ne _ _ _ _ hk2, lookup_setdefault_ne _ _ _ _ hk1]
  · unfold CV.childEnv
    rw [lookup_setdefault_ne _ _ _ _ (by decide), lookup_setdefault_self]
  · unfold CV.childEnv
    rw [lookup_setdefault_self, lookup_setdefault_ne _ _ _ _ (by decide)]

/-- Witness for the amended C4 at a concrete host environment. -/
theorem c4_amended_witness :
    (CV.executeCode Oracles.parseOK 10 [("PATH", "/usr/bin")] Oracles.wQuiet "x"
        none false).spawns.map CV.Spawn.env =
      [CV.childEnv [("PATH", "/usr/bin")]] ∧
    (CV.childEnv [("PATH", "/usr/bin")]).lookup "PATH" =
      Env.lookup [("PATH", "/usr/bin")] "PATH" ∧
    (CV.childEnv [("PATH", "/usr/bin")]).lookup "CHROME_BIN" =
      some ((Env.lookup [("PATH", "/usr/bin")] "CHROME_BIN").getD "/usr/bin/chromium") ∧
    (CV.childEnv [("PATH", "/usr/bin")]).lookup "CHROMEDRIVER_PATH" =
      some ((Env.lookup [("PATH", "/usr/bin")] "CHROMEDRIVER_PATH").getD "/usr/bin/chromedriver") :=
  c4_amended_full_env_with_defaults Oracles.parseOK 10 [("PATH", "/usr/bin")]
    Oracles.wQuiet "x" none false "PATH" rfl (by decide) (by decide)

/-! ### C5 -/

/-- C5 counterexample: a pytest run creates a per-run allure results
directory and never removes it — it is still present when the call
returns (indeed its path is returned), refuting "no scratch state created
by the call persists after it". -/
theorem c5_counterexample_results_dir_persists :
    (CV.executeCode Oracles.parseOK 10 [] Oracles.wScenB "x" none
        true).scratchLeft = ["allure-results/r1"] ∧
    ["allure-results/r1"] ≠ ([] : List String) := by decide

/-- C5 amended: on every exit path the scratch source file is removed
before `execute_code` returns, but the per-run allure results directory
(created whenever the run goes through pytest) is not: it persists and
its path is returned as `allure_report_path`. -/
theorem c5_amended_tempfile_removed_dir_persists
    (parse : String → List String) (t : Nat) (host : Env) (w : CV.World)
    (code : String) (src : Option String) (rwp : Bool)
    (hd : w.tempFile ≠ "allure-results/" ++ w.runId) :
    w.tempFile ∉ (CV.executeCode parse t host w code src rwp).scratchLeft ∧
    (parse code = [] → (rwp || CV.hasAllureDecorators code) = true →
      (CV.executeCode parse t host w code src rwp).scratchLeft =
        ["allure-results/" ++ w.runId] ∧
      (CV.executeCode parse t host w code src rwp).result.allure_report_path =
        some ("allure-results/" ++ w.runId)) := by
  obtain ⟨co, el, st, de, tf, ri⟩ := w
  simp only [CV.World.tempFile, CV.World.runId] at hd ⊢
  by_cases hp : parse code = []
  · cases co <;>
      cases hrwp : rwp || CV.hasAllureDecorators code <;>
        simp_all [CV.executeCode, List.filter, Ne.symm hd]
  · simp [CV.executeCode, hp]

/-- Witness for the amended C5 at a concrete pytest run. -/
theorem c5_amended_witness :
    "t.py" ∉ (CV.executeCode Oracles.parseOK 10 [] Oracles.wScenB "x" none
        true).scratchLeft ∧
    (CV.executeCode Oracles.parseOK 10 [] Oracles.wScenB "x" none
        true).scratchLeft = ["allure-results/r1"] ∧
    (CV.executeCode Oracles.parseOK 10 [] Oracles.wScenB "x" none
        true).result.allure_report_path = some ("allure-results/" ++ "r1") := by
  have h := c5_amended_tempfile_removed_dir_persists Oracles.parseOK 10 []
    Oracles.wScenB "x" none true (by decide)
  exact ⟨h.1, (h.2 rfl rfl).1, (h.2 rfl rfl).2⟩

/-! ### C2 -/

/-- Folding `bumpStatus` over a list of all-"passed" statuses adds the list
length to both `passed` and `total_tests`. -/
theorem bumpStatus_foldl_all_passed (l : List String) :
    ∀ r : CV.AllureResults, (∀ s ∈ l, s = "passed") →
      (List.foldl CV.bumpStatus r l).passed = r.passed + l.length ∧
      (List.foldl CV.bumpStatus r l).total_tests = r.total_tests + l.length := by
  induction l with
  | nil => intro r _; simp
  | cons s tl ih =>
    intro r h
    have hs : s = "passed" := h s (by simp)
    have hrest : ∀ x ∈ tl, x = "passed" := fun x hx => h x (by simp [hx])
    subst hs
    have hb := ih (CV.bumpStatus r "passed") hrest
    have h1 : (CV.bumpStatus r "passed").passed = r.passed + 1 := by
      simp [CV.bumpStatus]
    have h2 : (CV.bumpStatus r "passed").total_tests = r.total_tests + 1 := by
      simp [CV.bumpStatus]
    simp only [List.foldl_cons]
    constructor
    · rw [hb.1, h1]; simp; omega
    · rw [hb.2, h2]; simp; omega

/-- When every collected status is "passed", the aggregated counts satisfy
`passed = total_tests`. -/
theorem parseAllure_all_passed (l : List String) (h : ∀ s ∈ l, s = "passed") :
    (CV.parseAllureResults l).passed = (CV.parseAllureResults l).total_tests := by
  have h2 := bumpStatus_foldl_all_passed l ⟨0, 0, 0, 0, 0, []⟩ h
  unfold CV.parseAllureResults
  rw [h2.1, h2.2]

/-- C2: a repair attempt is marked Succeeded only when execution produced
zero runtime diagnostics and, whenever structured results exist, every
test passed (`passed = total_tests`); in particular, for a
structured-runner source with 3 tests of which 2 pass and 1 fails, the
structured results are total 3 / passed 2 / failed 1 / broken 0 /
skipped 0 and the attempt is not marked Succeeded.  The hypothesis
`hpytest` encodes pytest's documented exit-code contract (exit 0 only
when every collected test passed), which links the child's return code to
the statuses found in the results directory. -/
theorem c2_success_requires_all_passed
    (parse : String → List String) (t : Nat) (host : Env)
    (code out err : String) (rc : Int) (statuses : List String)
    (elapsed : ℚ) (tf rid : String)
    (hparse : parse code = [])
    (hpytest : rc = 0 → ∀ s ∈ statuses, s = "passed") :
    (CV.succeededCheck (CV.executeCode parse t host
        ⟨.exited rc out err, elapsed, statuses, true, tf, rid⟩ code none
        true).result = true →
      (CV.executeCode parse t host
        ⟨.exited rc out err, elapsed, statuses, true, tf, rid⟩ code none
        true).result.runtimeErrors = [] ∧
      ∀ a, (CV.executeCode parse t host
        ⟨.exited rc out err, elapsed, statuses, true, tf, rid⟩ code none
        true).result.allure_results = some a → a.passed = a.total_tests) ∧
    (statuses = ["passed", "passed", "failed"] →
      (CV.executeCode parse t host
        ⟨.exited rc out err, elapsed, statuses, true, tf, rid⟩ code none
        true).result.allure_results =
          some ⟨3, 2, 1, 0, 0, ["passed", "passed", "failed"]⟩ ∧
      CV.succeededCheck (CV.executeCode parse t host
        ⟨.exited rc out err, elapsed, statuses, true, tf, rid⟩ code none
        true).result = false) := by
  constructor
  · intro hs
    have hrc : rc = 0 := by
      by_contra hne
      simp [CV.executeCode, CV.succeededCheck, hparse, hne] at hs
    subst hrc
    refine ⟨by simp [CV.executeCode, hparse], ?_⟩
    intro a ha
    simp [CV.executeCode, hparse] at ha
    rw [← ha]
    exact parseAllure_all_passed statuses (hpytest rfl)
  · intro hst
    subst hst
    have hrc : rc ≠ 0 := by
      intro h0
      have := hpytest h0 "failed" (by simp)
      simp at this
    constructor
    · simp only [CV.executeCode, hparse]
      simp
      decide
    · simp [CV.executeCode, CV.succeededCheck, hparse, hrc]

/-- Witness for C2: spec §8 Scenario B concretely (3 tests, 2 passed,
1 failed, pytest exit code 1). -/
theorem c2_witness :
    (CV.executeCode Oracles.parseOK 10 [] Oracles.wScenB "x" none
        true).result.allure_results =
      some ⟨3, 2, 1, 0, 0, ["passed", "passed", "failed"]⟩ ∧
    CV.succeededCheck (CV.executeCode Oracles.parseOK 10 [] Oracles.wScenB "x"
        none true).result = false :=
  (c2_success_requires_all_passed Oracles.parseOK 10 [] "x"
      "collected 3 items" "" 1 ["passed", "passed", "failed"] 1 "t.py" "r1"
      rfl (fun h => absurd h (by decide))).2 rfl

/-! ### C1 -/

/-- The repair loop always returns the candidate and validation result of
its final iteration: the returned pair is the last element of the
execution trail. -/
theorem sessionGo_trail_last
    (parse : String → List String) (worlds : Nat → CV.World) (t : Nat)
    (host : Env) (ai : Nat → String → Except String String) (maxR : Nat) :
    ∀ fuel retry cur rc trail, retry ≤ maxR → retry + fuel = maxR + 1 →
      ∃ pre,
        (CV.sessionGo parse worlds t host ai maxR fuel retry cur rc trail).trail =
          pre ++
            [((CV.sessionGo parse worlds t host ai maxR fuel retry cur rc trail).final_code,
              (CV.sessionGo parse worlds t host ai maxR fuel retry cur rc trail).validation)] := by
  intro fuel
  induction fuel with
  | zero => intro retry cur rc trail h1 h2; omega
  | succ fuel ih =>
    intro retry cur rc trail h1 h2
    by_cases hs : CV.succeededCheck
        (CV.executeCode parse t host (worlds retry) cur none true).result = true
    · exact ⟨trail, by simp [CV.sessionGo, hs]⟩
    · by_cases hm : maxR ≤ retry
      · exact ⟨trail, by simp [CV.sessionGo, hs, hm]⟩
      · by_cases hf : (CV.validateAndFix parse cur 3).is_valid = true
        · simpa [CV.sessionGo, hs, hm, hf] using
            ih (retry + 1) (CV.validateAndFix parse cur 3).fixed_code rc
              (trail ++ [(cur, (CV.executeCode parse t host (worlds retry) cur none true).result)])
              (by omega) (by omega)
        · cases hai : ai retry cur with
          | ok s =>
            simpa [CV.sessionGo, hs, hm, hf, hai] using
              ih (retry + 1) (CV.cleanMarkdown s) (rc + 1)
                (trail ++ [(cur, (CV.executeCode parse t host (worlds retry) cur none true).result)])
                (by omega) (by omega)
          | error e =>
            simpa [CV.sessionGo, hs, hm, hf, hai] using
              ih (retry + 1) cur (rc + 1)
                (trail ++ [(cur, (CV.executeCode parse t host (worlds retry) cur none true).result)])
                (by omega) (by omega)

/-- C1 counterexample: a session whose initial code fails to parse, whose
local fixes never apply, and whose remote fixer keeps returning fresh but
still-unparseable candidates.  No attempt ever strictly improves the passed
count and none succeeds, so the spec's best-candidate rule retains the
initial candidate "origin"; the code nonetheless returns the last remote
candidate "junk3".  The session result is therefore not the best candidate
seen, refuting the claim. -/
theorem c1_counterexample_last_not_best :
    CV.specBestOfTrail
      (CV.validateWithAiRetry Oracles.parseBad (fun _ => Oracles.wQuiet) 10 []
        Oracles.aiJunk "origin" 4).trail = some "origin" ∧
    (CV.validateWithAiRetry Oracles.parseBad (fun _ => Oracles.wQuiet) 10 []
      Oracles.aiJunk "origin" 4).final_code = "junk3" ∧
    ("origin" : String) ≠ "junk3" := by decide

/-- C1 amended: `validate_with_ai_retry` performs no best-candidate
tracking; both on success and on exhaustion it returns the candidate of
its final attempt (the most recent code) together with that attempt's
validation result — the returned pair is always the last entry of the
session's attempt trail. -/
theorem c1_amended_returns_last_candidate
    (parse : String → List String) (worlds : Nat → CV.World) (t : Nat)
    (host : Env) (ai : Nat → String → Except String String)
    (code : String) (maxR : Nat) :
    ∃ pre,
      (CV.validateWithAiRetry parse worlds t host ai code maxR).trail =
        pre ++
          [((CV.validateWithAiRetry parse worlds t host ai code maxR).final_code,
            (CV.validateWithAiRetry parse worlds t host ai code maxR).validation)] := by
  simpa [CV.validateWithAiRetry] using
    sessionGo_trail_last parse worlds t host ai maxR (maxR + 1) 0 code 0 []
      (Nat.zero_le _) (by omega)

/-! ### C3 -/

/-- When the source never parses, local fixes fail, and every remote fix
call raises, the repair loop keeps the original code, swallows each remote
error, and consumes its full attempt budget. -/
theorem sessionGo_remote_error_consumes_budget
    (parse : String → List String) (worlds : Nat → CV.World) (t : Nat)
    (host : Env) (ai : Nat → String → Except String String) (maxR : Nat)
    (code : String)
    (h1 : parse code ≠ [])
    (h2 : (CV.validateAndFix parse code 3).is_valid = false)
    (h3 : ∀ i s, ai i code ≠ .ok s) :
    ∀ fuel retry rc trail, retry ≤ maxR → retry + fuel = maxR + 1 →
      (CV.sessionGo parse worlds t host ai maxR fuel retry code rc trail).final_code = code ∧
      (CV.sessionGo parse worlds t host ai maxR fuel retry code rc trail).is_valid = false ∧
      (CV.sessionGo parse worlds t host ai maxR fuel retry code rc trail).retries_count =
        rc + (maxR - retry) ∧
      (CV.sessionGo parse worlds t host ai maxR fuel retry code rc trail).trail.length =
        trail.length + (maxR + 1 - retry) := by
  intro fuel
  induction fuel with
  | zero => intro retry rc trail hr hf; omega
  | succ fuel ih =>
    intro retry rc trail hr hfuel
    have hinv :
        (CV.executeCode parse t host (worlds retry) code none true).result.is_valid = false :=
      (executeCode_syntax_invalid parse t host (worlds retry) code none true h1).1
    have hs : CV.succeededCheck
        (CV.executeCode parse t host (worlds retry) code none true).result = false := by
      simp [CV.succeededCheck, hinv]
    by_cases hm : maxR ≤ retry
    · have hret : retry = maxR := le_antisymm hr hm
      subst hret
      simp [CV.sessionGo, hs, hm]
    · cases hai : ai retry code with
      | ok s => exact absurd hai (h3 retry s)
      | error e =>
        have hstep :
            CV.sessionGo parse worlds t host ai maxR (fuel + 1) retry code rc trail =
              CV.sessionGo parse worlds t host ai maxR fuel (retry + 1) code (rc + 1)
                (trail ++
                  [(code, (CV.executeCode parse t host (worlds retry) code none true).result)]) := by
          simp [CV.sessionGo, hs, hm, h2, hai]
        rw [hstep]
        have hrec := ih (retry + 1) (rc + 1)
          (trail ++ [(code, (CV.executeCode parse t host (worlds retry) code none true).result)])
          (by omega) (by omega)
        refine ⟨hrec.1, hrec.2.1, ?_, ?_⟩
        · rw [hrec.2.2.1]; omega
        · rw [hrec.2.2.2]; simp; omega

/-- C3 counterexample: the remote fix call of the very first attempt fails
with a non-retryable client error, yet the session goes on to perform all
5 validate/execute attempts and all 4 fix attempts before returning
failure — it is not aborted early and the remaining budget is consumed,
refuting the claim. -/
theorem c3_counterexample_budget_consumed_after_remote_error :
    (CV.validateWithAiRetry Oracles.parseBad (fun _ => Oracles.wQuiet) 10 []
      Oracles.aiErr "origin" 4).trail.length = 5 ∧
    (CV.validateWithAiRetry Oracles.parseBad (fun _ => Oracles.wQuiet) 10 []
      Oracles.aiErr "origin" 4).retries_count = 4 := by decide

/-- C3 amended: a remote fix failure (retryable or not) is caught and
logged inside the loop; the session continues with the unchanged code,
consumes its entire attempt budget (`max_retries + 1` executions,
`max_retries` remote attempts), and only then returns failure. -/
theorem c3_amended_remote_error_swallowed
    (parse : String → List String) (worlds : Nat → CV.World) (t : Nat)
    (host : Env) (ai : Nat → String → Except String String)
    (code : String) (maxR : Nat)
    (h1 : parse code ≠ [])
    (h2 : (CV.validateAndFix parse code 3).is_valid = false)
    (h3 : ∀ i s, ai i code ≠ .ok s) :
    (CV.validateWithAiRetry parse worlds t host ai code maxR).final_code = code ∧
    (CV.validateWithAiRetry parse worlds t host ai code maxR).is_valid = false ∧
    (CV.validateWithAiRetry parse worlds t host ai code maxR).retries_count = maxR ∧
    (CV.validateWithAiRetry parse worlds t host ai code maxR).trail.length = maxR + 1 := by
  have h := sessionGo_remote_error_consumes_budget parse worlds t host ai maxR
    code h1 h2 h3 (maxR + 1) 0 0 [] (Nat.zero_le _) (by omega)
  simpa [CV.validateWithAiRetry] using h

/-- Witness for the amended C3 at a concrete always-raising fixer. -/
theorem c3_amended_witness :
    (CV.validateWithAiRetry Oracles.parseBad (fun _ => Oracles.wQuiet) 10 []
      Oracles.aiErr "origin" 4).final_code = "origin" ∧
    (CV.validateWithAiRetry Oracles.parseBad (fun _ => Oracles.wQuiet) 10 []
      Oracles.aiErr "origin" 4).is_valid = false ∧
    (CV.validateWithAiRetry Oracles.parseBad (fun _ => Oracles.wQuiet) 10 []
      Oracles.aiErr "origin" 4).retries_count = 4 ∧
    (CV.validateWithAiRetry Oracles.parseBad (fun _ => Oracles.wQuiet) 10 []
      Oracles.aiErr "origin" 4).trail.length = 4 + 1 :=
  c3_amended_remote_error_swallowed Oracles.parseBad (fun _ => Oracles.wQuiet)
    10 [] Oracles.aiErr "origin" 4 (by decide) (by decide)
    (fun i s => by simp [Oracles.aiErr])

/-! ### C7 -/

/-- For sources that mention `Severity` without the allure-commons import
and without an `import allure` line (and trigger no other fix),
`_apply_common_fixes` reports the Severity fix while inserting nothing:
it returns the code unchanged with a one-element fix list. -/
theorem applyCommonFixes_sev_noop (c : String) (errors : List String)
    (hPy : (pyIn "pytest" c && !pyIn "import pytest" c) = false)
    (hUt : (pyIn "unittest" c && !pyIn "import unittest" c) = false)
    (hAl : (pyIn "@allure" c && !pyIn "import allure" c) = false)
    (hSev : pyIn "Severity" c = true)
    (hNoSevImp : pyIn CV.sevImportLine c = false)
    (hIns : CV.insertAfterAllureImport (pySplit "\n" c) = pySplit "\n" c)
    (hJoin : pyJoin "\n" (pySplit "\n" c) = c)
    (hNoInd : (errors.any fun e =>
        pyIn "IndentationError" e || pyIn "expected an indented block" e) = false) :
    CV.applyCommonFixes c errors = (c, [CV.sevFixMsg]) := by
  simp [CV.applyCommonFixes, hPy, hUt, hAl, hSev, hNoSevImp, hIns, hJoin, hNoInd]

/-- Under the same conditions, `validate_and_fix` (3 passes) returns the
code unchanged, invalid, with the Severity fix reported twice. -/
theorem validateAndFix_sev (parse : String → List String) (c : String)
    (hE : (parse c).isEmpty = false)
    (acf : CV.applyCommonFixes c (parse c) = (c, [CV.sevFixMsg])) :
    CV.validateAndFix parse c 3 = ⟨c, false, [CV.sevFixMsg, CV.sevFixMsg], parse c⟩ := by
  simp [CV.validateAndFix, CV.vafGo, CV.vafFinal, hE, acf]

/-- C7 counterexample: `"Severity ="` fails `ast.parse` with
`invalid syntax`; the fix pass driven by `validate_and_fix` returns it
unchanged with the Severity fix reported (twice), so this string is its
own already-fixed output — yet re-running returns a *nonempty* fix list
again, refuting "returns that code unchanged together with an empty list
of applied fixes". -/
theorem c7_counterexample_not_idempotent :
    (CV.validateAndFix Oracles.parseSev "Severity =" 3).fixed_code = "Severity =" ∧
    (CV.validateAndFix Oracles.parseSev
      (CV.validateAndFix Oracles.parseSev "Severity =" 3).fixed_code 3).fixed_code =
      "Severity =" ∧
    (CV.validateAndFix Oracles.parseSev
      (CV.validateAndFix Oracles.parseSev "Severity =" 3).fixed_code 3).fixes_applied ≠
      [] := by decide

/-- C7 amended: re-running the driven fix pass on already-fixed code
returns the code text unchanged, but the applied-fix list need not be
empty: whenever the code mentions `Severity`, lacks the allure-commons
Severity import, has no `import allure` line (and no other fix or indentation
repair applies), the Severity fix is re-reported on every run. -/
theorem c7_amended_code_unchanged_fixlist_repeats
    (parse : String → List String) (c : String)
    (hE : (parse c).isEmpty = false)
    (hPy : (pyIn "pytest" c && !pyIn "import pytest" c) = false)
    (hUt : (pyIn "unittest" c && !pyIn "import unittest" c) = false)
    (hAl : (pyIn "@allure" c && !pyIn "import allure" c) = false)
    (hSev : pyIn "Severity" c = true)
    (hNoSevImp : pyIn CV.sevImportLine c = false)
    (hIns : CV.insertAfterAllureImport (pySplit "\n" c) = pySplit "\n" c)
    (hJoin : pyJoin "\n" (pySplit "\n" c) = c)
    (hNoInd : ((parse c).any fun e =>
        pyIn "IndentationError" e || pyIn "expected an indented block" e) = false) :
    (CV.validateAndFix parse c 3).fixed_code = c ∧
    (CV.validateAndFix parse (CV.validateAndFix parse c 3).fixed_code 3).fixed_code = c ∧
    (CV.validateAndFix parse (CV.validateAndFix parse c 3).fixed_code 3).fixes_applied =
      [CV.sevFixMsg, CV.sevFixMsg] ∧
    [CV.sevFixMsg, CV.sevFixMsg] ≠ ([] : List String) := by
  have acf := applyCommonFixes_sev_noop c (parse c) hPy hUt hAl hSev hNoSevImp
    hIns hJoin hNoInd
  have hv := validateAndFix_sev parse c hE acf
  rw [hv]
  exact ⟨rfl, by rw [hv], by rw [hv], by decide⟩

/-- Witness for the amended C7 at the concrete source `"Severity ="`. -/
theorem c7_amended_witness :
    (CV.validateAndFix Oracles.parseSev "Severity =" 3).fixed_code = "Severity =" ∧
    (CV.validateAndFix Oracles.parseSev
      (CV.validateAndFix Oracles.parseSev "Severity =" 3).fixed_code 3).fixed_code =
      "Severity =" ∧
    (CV.validateAndFix Oracles.parseSev
      (CV.validateAndFix Oracles.parseSev "Severity =" 3).fixed_code 3).fixes_applied =
      [CV.sevFixMsg, CV.sevFixMsg] ∧
    [CV.sevFixMsg, CV.sevFixMsg] ≠ ([] : List String) :=
  c7_amended_code_unchanged_fixlist_repeats Oracles.parseSev "Severity ="
    (by decide) (by decide) (by decide) (by decide) (by decide) (by decide)
    (by decide) (by decide) (by decide)

/-! ### C8 -/

/-- Invariant of sequentially reachable breaker states: an Open breaker has
accumulated at least `threshold` consecutive failures, and no breaker is
ever left in HalfOpen between calls (each probe commits to Closed or Open
before `call` returns). -/
theorem breaker_reachable_inv {threshold : Nat} {recovery : ℚ} {b : CB.Breaker}
    (hreach : CB.Reachable threshold recovery b) :
    (b.state = .opened → b.failure_threshold ≤ b.failure_count) ∧
      b.state ≠ .halfOpen := by
  induction hreach with
  | init => simp [CB.initBreaker]
  | @step b now succ _ ih =>
    by_cases hop : b.state = .opened
    · by_cases hres : CB.shouldAttemptReset b now = true
      · cases succ with
        | true => simp [CB.call, CB.runOp, CB.onSuccess, hop, hres]
        | false =>
          have hth := ih.1 hop
          have h2 : b.failure_threshold ≤ b.failure_count + 1 := by omega
          simp [CB.call, CB.runOp, CB.onFailure, hop, hres, h2]
      · simpa [CB.call, hop, hres] using ih
    · have hcl : b.state = .closed := by
        cases hst : b.state
        · rfl
        · exact absurd hst hop
        · exact absurd hst ih.2
      cases succ with
      | true => simp [CB.call, CB.runOp, CB.onSuccess, hop, hcl]
      | false =>
        by_cases h2 : b.failure_threshold ≤ b.failure_count + 1
        · simp [CB.call, CB.runOp, CB.onFailure, hop, h2]
        · simp [CB.call, CB.runOp, CB.onFailure, hop, h2, hcl]

/-- C8: the `CircuitBreaker` state machine behaves as specified on every
sequentially reachable state: (i) from Closed, a failing call invokes the
wrapped operation and opens the breaker exactly when the consecutive
failure count reaches the threshold, while a successful call keeps it
Closed with the count reset; (ii) while Open before `recovery_timeout`
has elapsed since the last failure, every call is rejected immediately
(`rejected`, the breaker-open error) without invoking the wrapped
operation and without changing state; (iii) once the timeout has elapsed
the next call is let through as a HalfOpen probe — success commits to
Closed with the failure count reset, failure commits back to Open; and
(iv) no call ever returns leaving the breaker HalfOpen, so exactly one
probe runs before the breaker commits. -/
theorem c8_circuit_breaker_state_machine
    (threshold : Nat) (recovery : ℚ) (b : CB.Breaker) (now : ℚ) (succ : Bool)
    (hreach : CB.Reachable threshold recovery b) :
    (b.state = .closed →
      (CB.call b now false).2 = .invokedFail ∧
      ((CB.call b now false).1.state = .opened ↔
        b.failure_threshold ≤ b.failure_count + 1) ∧
      (CB.call b now true).1.state = .closed ∧
      (CB.call b now true).1.failure_count = 0) ∧
    (b.state = .opened → CB.shouldAttemptReset b now = false →
      CB.call b now succ = (b, .rejected)) ∧
    (b.state = .opened → CB.shouldAttemptReset b now = true →
      (CB.call b now succ).2 ≠ .rejected ∧
      (CB.call b now true).1.state = .closed ∧
      (CB.call b now true).1.failure_count = 0 ∧
      (CB.call b now false).1.state = .opened) ∧
    (CB.call b now succ).1.state ≠ .halfOpen := by
  refine ⟨?_, ?_, ?_, ?_⟩
  · intro hcl
    have hne : b.state ≠ .opened := by simp [hcl]
    refine ⟨?_, ?_, ?_, ?_⟩
    · simp [CB.call, CB.runOp, hne]
    · by_cases hth : b.failure_threshold ≤ b.failure_count + 1
      · simp [CB.call, CB.runOp, CB.onFailure, hne, hth]
      · simp [CB.call, CB.runOp, CB.onFailure, hne, hth, hcl]
    · simp [CB.call, CB.runOp, CB.onSuccess, hne, hcl]
    · simp [CB.call, CB.runOp, CB.onSuccess, hne]
  · intro hop hres
    simp [CB.call, hop, hres]
  · intro hop hres
    have hth : b.failure_threshold ≤ b.failure_count :=
      (breaker_reachable_inv hreach).1 hop
    have hth1 : b.failure_threshold ≤ b.failure_count + 1 := by omega
    refine ⟨?_, ?_, ?_, ?_⟩
    · cases succ <;> simp [CB.call, CB.runOp, hop, hres]
    · simp [CB.call, CB.runOp, CB.onSuccess, hop, hres]
    · simp [CB.call, CB.runOp, CB.onSuccess, hop, hres]
    · simp [CB.call, CB.runOp, CB.onFailure, hop, hres, hth1]
  · exact (breaker_reachable_inv (CB.Reachable.step now succ hreach)).2

/-- Witness for C8: with threshold 1, a failure on the fresh breaker opens
it, a call before the recovery timeout is rejected, and the probe after
the timeout closes it again with the count reset. -/
theorem c8_witness :
    (CB.call (CB.initBreaker 1 60) 0 false).1.state = .opened ∧
    (CB.call (CB.call (CB.initBreaker 1 60) 0 false).1 30 true) =
      ((CB.call (CB.initBreaker 1 60) 0 false).1, .rejected) ∧
    (CB.call (CB.call (CB.initBreaker 1 60) 0 false).1 70 true).1.state = .closed ∧
    (CB.call (CB.call (CB.initBreaker 1 60) 0 false).1 70 true).1.failure_count = 0 := by
  have h0 := c8_circuit_breaker_state_machine 1 60 (CB.initBreaker 1 60) 0 false
    CB.Reachable.init
  have hstate : (CB.call (CB.initBreaker 1 60) 0 false).1.state = .opened :=
    ((h0.1 rfl).2.1).mpr (by decide)
  have hreach1 : CB.Reachable 1 60 (CB.call (CB.initBreaker 1 60) 0 false).1 :=
    CB.Reachable.step 0 false CB.Reachable.init
  have h30 := c8_circuit_breaker_state_machine 1 60
    (CB.call (CB.initBreaker 1 60) 0 false).1 30 true hreach1
  have h70 := c8_circuit_breaker_state_machine 1 60
    (CB.call (CB.initBreaker 1 60) 0 false).1 70 true hreach1
  have hres30 : CB.shouldAttemptReset (CB.call (CB.initBreaker 1 60) 0 false).1 30 = false := by
    simp [CB.call, CB.runOp, CB.onFailure, CB.initBreaker, CB.shouldAttemptReset]
    norm_num
  have hres70 : CB.shouldAttemptReset (CB.call (CB.initBreaker 1 60) 0 false).1 70 = true := by
    simp [CB.call, CB.runOp, CB.onFailure, CB.initBreaker, CB.shouldAttemptReset]
    norm_num
  exact ⟨hstate, h30.2.1 hstate hres30,
    (h70.2.2.1 hstate hres70).2.1, (h70.2.2.1 hstate hres70).2.2.1⟩

/-! ### C9 -/

/-- When every attempted request produces the same retryable outcome `o`,
the retry loop runs through its whole budget, sleeping
`backoff * 2 ^ attempt` between attempts, and ends in the final raise for
`o`. -/
theorem retryGo_persist (outcomes : Nat → HC.ReqOutcome) (maxR : Nat)
    (backoff : ℚ) (o : HC.ReqOutcome)
    (hpersist : ∀ i, outcomes i = o)
    (hnotok : ∀ j, o ≠ .ok j)
    (hnot4xx : ∀ st text, o = .httpStatus st text → ¬(400 ≤ st ∧ st < 500)) :
    ∀ fuel attempt last delays, attempt + fuel = maxR + 1 →
      ((attempt = 0 ∧ last = none) ∨ last = some o) →
      HC.retryGo outcomes maxR backoff fuel attempt last delays =
        HC.finalRaise (some o) (maxR + 1)
          (delays ++ (List.range' attempt (maxR - attempt)).map
            fun i => backoff * 2 ^ i) := by
  intro fuel
  induction fuel with
  | zero =>
    intro attempt last delays hfuel hlast
    have ha : attempt = maxR + 1 := by omega
    have hl : last = some o := by
      rcases hlast with ⟨h0, _⟩ | hl
      · omega
      · exact hl
    subst ha; subst hl
    have hz : maxR - (maxR + 1) = 0 := by omega
    simp [HC.retryGo, hz]
  | succ fuel ih =>
    intro attempt last delays hfuel hlast
    have hle : attempt ≤ maxR := by omega
    have hdelays :
        (if attempt < maxR then delays ++ [backoff * 2 ^ attempt] else delays) ++
            (List.range' (attempt + 1) (maxR - (attempt + 1))).map
              (fun i => backoff * 2 ^ i) =
          delays ++ (List.range' attempt (maxR - attempt)).map
            fun i => backoff * 2 ^ i := by
      by_cases hlt : attempt < maxR
      · have hsub : maxR - attempt = (maxR - (attempt + 1)) + 1 := by omega
        rw [hsub, List.range'_succ]
        simp [hlt]
      · have ha : attempt = maxR := by omega
        subst ha
        simp [hlt, Nat.sub_self, Nat.sub_eq_zero_of_le (Nat.le_succ _)]
    cases ho : o with
    | ok j => exact absurd rfl (ho ▸ hnotok j)
    | httpStatus st text =>
      subst ho
      have h4 : ¬(400 ≤ st ∧ st < 500) := hnot4xx st text rfl
      have hout := hpersist attempt
      have hrec := ih (attempt + 1) (some (.httpStatus st text))
        (if attempt < maxR then delays ++ [backoff * 2 ^ attempt] else delays)
        (by omega) (Or.inr rfl)
      calc HC.retryGo outcomes maxR backoff (fuel + 1) attempt last delays
          = HC.retryGo outcomes maxR backoff fuel (attempt + 1)
              (some (.httpStatus st text))
              (if attempt < maxR then delays ++ [backoff * 2 ^ attempt] else delays) := by
            simp [HC.retryGo, hout, h4]
        _ = HC.finalRaise (some (.httpStatus st text)) (maxR + 1)
              (delays ++ (List.range' attempt (maxR - attempt)).map
                fun i => backoff * 2 ^ i) := by
            rw [hrec, hdelays]
    | timeoutExc m =>
      subst ho
      have hout := hpersist attempt
      have hrec := ih (attempt + 1) (some (.timeoutExc m))
        (if attempt < maxR then delays ++ [backoff * 2 ^ attempt] else delays)
        (by omega) (Or.inr rfl)
      calc HC.retryGo outcomes maxR backoff (fuel + 1) attempt last delays
          = HC.retryGo outcomes maxR backoff fuel (attempt + 1) (some (.timeoutExc m))
              (if attempt < maxR then delays ++ [backoff * 2 ^ attempt] else delays) := by
            simp [HC.retryGo, hout]
        _ = HC.finalRaise (some (.timeoutExc m)) (maxR + 1)
              (delays ++ (List.range' attempt (maxR - attempt)).map
                fun i => backoff * 2 ^ i) := by
            rw [hrec, hdelays]
    | connectExc m =>
      subst ho
      have hout := hpersist attempt
      have hrec := ih (attempt + 1) (some (.connectExc m))
        (if attempt < maxR then delays ++ [backoff * 2 ^ attempt] else delays)
        (by omega) (Or.inr rfl)
      calc HC.retryGo outcomes maxR backoff (fuel + 1) attempt last delays
          = HC.retryGo outcomes maxR backoff fuel (attempt + 1) (some (.connectExc m))
              (if attempt < maxR then delays ++ [backoff * 2 ^ attempt] else delays) := by
            simp [HC.retryGo, hout]
        _ = HC.finalRaise (some (.connectExc m)) (maxR + 1)
              (delays ++ (List.range' attempt (maxR - attempt)).map
                fun i => backoff * 2 ^ i) := by
            rw [hrec, hdelays]
    | otherExc m =>
      subst ho
      have hout := hpersist attempt
      have hrec := ih (attempt + 1) (some (.otherExc m))
        (if attempt < maxR then delays ++ [backoff * 2 ^ attempt] else delays)
        (by omega) (Or.inr rfl)
      calc HC.retryGo outcomes maxR backoff (fuel + 1) attempt last delays
          = HC.retryGo outcomes maxR backoff fuel (attempt + 1) (some (.otherExc m))
              (if attempt < maxR then delays ++ [backoff * 2 ^ attempt] else delays) := by
            simp [HC.retryGo, hout]
        _ = HC.finalRaise (some (.otherExc m)) (maxR + 1)
              (delays ++ (List.range' attempt (maxR - attempt)).map
                fun i => backoff * 2 ^ i) := by
            rw [hrec, hdelays]

/-- The backoff delays `backoff * 2 ^ i` over any index range are strictly
increasing when `backoff` is positive. -/
theorem delays_chain (backoff : ℚ) (hb : 0 < backoff) :
    ∀ (n s : Nat),
      ((List.range' s n).map fun i => backoff * 2 ^ i).Chain' (· < ·)
  | 0, s => by simp
  | n + 1, s => by
    rw [List.range'_succ, List.map_cons, List.chain'_cons']
    refine ⟨?_, delays_chain backoff hb n (s + 1)⟩
    intro y hy
    cases n with
    | zero => simp at hy
    | succ m =>
      rw [List.range'_succ, List.map_cons] at hy
      simp only [List.head?_cons, Option.mem_def, Option.some.injEq] at hy
      subst hy
      have h2 : (2 : ℚ) ^ s < 2 ^ (s + 1) := by
        have := pow_lt_pow_right₀ (by norm_num : (1 : ℚ) < 2) (Nat.lt_succ_self s)
        simpa using this
      exact mul_lt_mul_of_pos_left h2 hb

/-- C9 counterexample: a persistent server-class failure (HTTP 500) is
retried through the whole budget but then surfaces with its *original*
status code 500, not as service-unavailable (503), refuting "server-class
failures surface as service-unavailable". -/
theorem c9_counterexample_server_error_status_preserved :
    (HC.makeRequestWithRetry (fun _ => .httpStatus 500 "boom") 3 1).result.statusOf =
      some 500 ∧
    some 500 ≠ some 503 := by
  constructor
  · have h := retryGo_persist (fun _ => .httpStatus 500 "boom") 3 1
      (.httpStatus 500 "boom") (fun _ => rfl) (fun j => by simp)
      (fun st text he => by
        cases he
        omega)
      4 0 none [] (by omega) (Or.inl ⟨rfl, rfl⟩)
    unfold HC.makeRequestWithRetry
    rw [h]
    rfl
  · decide

/-- C9 amended: a client-class (4xx) HTTP error yields exactly 1 attempt,
no sleeps, and surfaces immediately; a persistent timeout or connection
failure is attempted `max_retries + 1` times with strictly increasing
inter-attempt delays (`backoff * 2 ^ attempt`, for positive backoff) and
then surfaces as 503 service-unavailable; a persistent server-class (5xx)
HTTP error is likewise retried through the whole budget but surfaces with
its original status code rather than 503. -/
theorem c9_amended_retry_classification (outcomes : Nat → HC.ReqOutcome)
    (maxR : Nat) (backoff : ℚ) (st : Nat) (text m : String) :
    (outcomes 0 = .httpStatus st text → 400 ≤ st → st < 500 →
      HC.makeRequestWithRetry outcomes maxR backoff =
        ⟨.httpError st ("Client error: " ++ text), 1, []⟩) ∧
    ((∀ i, outcomes i = .timeoutExc m) →
      (HC.makeRequestWithRetry outcomes maxR backoff).result =
        .httpError 503 ("Failed after retries: " ++ m) ∧
      (HC.makeRequestWithRetry outcomes maxR backoff).attemptsMade = maxR + 1 ∧
      (HC.makeRequestWithRetry outcomes maxR backoff).delays =
        (List.range maxR).map (fun i => backoff * 2 ^ i) ∧
      (0 < backoff →
        (HC.makeRequestWithRetry outcomes maxR backoff).delays.Chain' (· < ·))) ∧
    ((∀ i, outcomes i = .connectExc m) →
      (HC.makeRequestWithRetry outcomes maxR backoff).result =
        .httpError 503 ("Failed after retries: " ++ m) ∧
      (HC.makeRequestWithRetry outcomes maxR backoff).attemptsMade = maxR + 1) ∧
    ((∀ i, outcomes i = .httpStatus st text) → 500 ≤ st →
      (HC.makeRequestWithRetry outcomes maxR backoff).result =
        .httpError st ("Failed after retries: " ++ text) ∧
      (HC.makeRequestWithRetry outcomes maxR backoff).attemptsMade = maxR + 1) := by
  refine ⟨?_, ?_, ?_, ?_⟩
  · intro h0 h4a h4b
    have h4 : (400 ≤ st ∧ st < 500) := ⟨h4a, h4b⟩
    simp [HC.makeRequestWithRetry, HC.retryGo, h0, h4]
  · intro hp
    have h := retryGo_persist outcomes maxR backoff (.timeoutExc m) hp
      (fun j => by simp) (fun s2 t2 he => by cases he)
      (maxR + 1) 0 none [] (by omega) (Or.inl ⟨rfl, rfl⟩)
    unfold HC.makeRequestWithRetry
    rw [h]
    refine ⟨rfl, rfl, ?_, ?_⟩
    · simp [HC.finalRaise, List.range_eq_range']
    · intro hb
      simpa [HC.finalRaise] using delays_chain backoff hb maxR 0
  · intro hp
    have h := retryGo_persist outcomes maxR backoff (.connectExc m) hp
      (fun j => by simp) (fun s2 t2 he => by cases he)
      (maxR + 1) 0 none [] (by omega) (Or.inl ⟨rfl, rfl⟩)
    unfold HC.makeRequestWithRetry
    rw [h]
    exact ⟨rfl, rfl⟩
  · intro hp h5
    have h := retryGo_persist outcomes maxR backoff (.httpStatus st text) hp
      (fun j => by simp) (fun s2 t2 he => by cases he; omega)
      (maxR + 1) 0 none [] (by omega) (Or.inl ⟨rfl, rfl⟩)
    unfold HC.makeRequestWithRetry
    rw [h]
    exact ⟨rfl, rfl⟩

/-- Witness for the amended C9: a 404 yields one attempt and no sleeps; a
persistent timeout with `max_retries = 3`, `backoff_factor = 1` yields 4
attempts, a 503, and strictly increasing delays. -/
theorem c9_amended_witness :
    HC.makeRequestWithRetry (fun _ => .httpStatus 404 "nf") 3 1 =
      ⟨.httpError 404 ("Client error: " ++ "nf"), 1, []⟩ ∧
    (HC.makeRequestWithRetry (fun _ => .timeoutExc "t") 3 1).result =
      .httpError 503 ("Failed after retries: " ++ "t") ∧
    (HC.makeRequestWithRetry (fun _ => .timeoutExc "t") 3 1).attemptsMade = 3 + 1 ∧
    (HC.makeRequestWithRetry (fun _ => .timeoutExc "t") 3 1).delays.Chain' (· < ·) := by
  have h404 := (c9_amended_retry_classification (fun _ => .httpStatus 404 "nf")
    3 1 404 "nf" "t").1 rfl (by omega) (by omega)
  have hto := (c9_amended_retry_classification (fun _ => .timeoutExc "t")
    3 1 404 "nf" "t").2.1 (fun _ => rfl)
  exact ⟨h404, hto.1, hto.2.1, hto.2.2.2 (by norm_num)⟩

end AIdevtools
